import Mathlib

/-!
Shallow embedding of the product persistence-and-validation subsystem of
the `product-api` repository (Go).

Sources embedded:
* `service/product_service.go` (src/unnamed/part_001): `ProductService.Add`,
  `validateProductCreate`, `validateNameWithRegex`.
* `service/model` (src/unnamed/part_000): `ProductCreate`.
* `persistence/product_repository.go` (the current version, lines 1-334):
  `GettAllProducts`, `GetAllProductsByStore`, `AddProduct`, `GetById`,
  `DeleteById`, `DeleteAllProducts`, `UpdatePrice`, `GetProductsByCategoryId`.
* the schema (src/unnamed/part_004): tables `products(id, name, price,
  description, discount, store, category_id)` and `product_images(product_id,
  image_urls, is_main_image, display_order)` with
  `REFERENCES products(id) ON DELETE CASCADE`.

Modelling conventions:
* `int64` ids are `Int`; `float32`/`double precision` numeric fields are `Rat`
  (the validation and update logic uses only order comparisons and copying,
  which `Rat` models exactly); SQL rows are Lean structures; the database is an
  explicit `Db` state threaded through operations.
* Go's `error` results become `Option String` (`none` = `nil`,
  `some msg` = an error with that message); fallible queries returning a value
  become `Except String _`.
* Driver-level failure of an underlying pool call (`Query`/`Exec` returning a
  non-nil error) is modelled by an `Option String` parameter `dbErr` on the
  operations whose contracts the claims state in terms of such failures
  (the three list operations and `UpdatePrice`); `none` means the underlying
  call succeeds, `some m` that it fails with driver message `m`.  The other
  operations are embedded on the success path of the driver.
* Go's `\p{L}`/`\p{N}` Unicode classes are modelled by `Char.isAlpha` /
  `Char.isDigit`, and `\s` by `Char.isWhitespace`; they agree with Go's
  classes on every input appearing in the claims (ASCII letters, digits,
  spaces).
* The cascade delete of `product_images` rows declared in the schema is part
  of the embedded delete operations, since it is observable behaviour of the
  store.

The current `domain.Product` struct is scanned with a `CategoryID` field by
`persistence/product_repository.go` (`&p.CategoryID`), so the embedded
`Product` carries `categoryID : Int` even though the older copy of
`domain/Product.go` kept in the repository predates that field.
-/

namespace ProductApp

/-- `domain.Product`: Id, Name, Price, Description, Discount, Store,
CategoryID (scanned by the repository), ImageUrls. -/
structure Product where
  id : Int
  name : String
  price : Rat
  description : String
  discount : Rat
  store : String
  categoryID : Int
  imageUrls : List String
deriving Repr, DecidableEq

/-- `service/model.ProductCreate`. -/
structure ProductCreate where
  name : String
  price : Rat
  description : String
  discount : Rat
  store : String
  imageUrls : List String
  categoryID : Int
deriving Repr, DecidableEq

/-- A row of the `products` table:
`products(id, name, price, description, discount, store, category_id)`. -/
structure ProductRow where
  id : Int
  name : String
  price : Rat
  description : String
  discount : Rat
  store : String
  categoryId : Int
deriving Repr, DecidableEq

/-- A row of the `product_images` table, with the columns written by
`AddProduct`: `product_images(product_id, image_urls, is_main_image,
display_order)` (the serial `id` column is never read back and is omitted). -/
structure ImageRow where
  productId : Int
  imageUrls : String
  isMainImage : Bool
  displayOrder : Nat
deriving Repr, DecidableEq

/-- The database state: the two tables plus the `BIGSERIAL` id counter that
generates product ids (`RETURNING id`). -/
structure Db where
  products : List ProductRow
  images : List ImageRow
  nextId : Int
deriving Repr, DecidableEq

/-! ## Validation (`validateNameWithRegex`, `validateProductCreate`) -/

/-- A character of the class `[\p{L}\p{N}\s]` in the validation regex. -/
def goWordChar (c : Char) : Bool :=
  c.isAlpha || c.isDigit || c.isWhitespace

/-- `regexp.MustCompile("^[\p{L}\p{N}\s]+$").MatchString s`: `s` is non-empty
and every character is a letter, digit or whitespace. -/
def matchesNameRegex (s : String) : Bool :=
  !(s == "") && s.toList.all goWordChar

/-- `validateNameWithRegex(name, errorMessage)`: empty name yields
`errorMessage`; a name not matching the regex yields the invalid-characters
message; otherwise `nil`. -/
def validateNameWithRegex (name : String) (errorMessage : String) : Option String :=
  if name == "" then
    some errorMessage
  else if !(matchesNameRegex name) then
    some "contains invalid characters (only alphanumeric and space allowed)"
  else
    none

/-- `validateProductCreate`: name check, then price, then store, then
discount, returning the first failing rule's error. -/
def validateProductCreate (productCreate : ProductCreate) : Option String :=
  match validateNameWithRegex productCreate.name "product name is required" with
  | some e => some e
  | none =>
    if productCreate.price ≤ 0 then
      some "product price must be greater than zero"
    else
      match validateNameWithRegex productCreate.store "store name is required" with
      | some e => some e
      | none =>
        if productCreate.discount < 0 || productCreate.discount > 70 then
          some "discount must be between 0 and 70 percent"
        else
          none

/-! ## Store operations (`persistence/product_repository.go`) -/

/-- The image rows inserted by the `for i, url := range product.ImageUrls`
loop of `AddProduct`, starting at index `i`: one row per URL, with
`display_order = position` and `is_main_image = (position == 0)`. -/
def imageRowsFor (productId : Int) : Nat → List String → List ImageRow
  | _, [] => []
  | i, url :: rest =>
    { productId := productId, imageUrls := url,
      isMainImage := i == 0, displayOrder := i } :: imageRowsFor productId (i + 1) rest

/-- `AddProduct`: insert one product row (`RETURNING id` yields the counter
value), then one image row per URL.  Returns the new state and the generated
id (scanned into `productId` in the source). -/
def AddProduct (db : Db) (product : Product) : Db × Int :=
  let productId := db.nextId
  let row : ProductRow :=
    { id := productId, name := product.name, price := product.price,
      description := product.description, discount := product.discount,
      store := product.store, categoryId := product.categoryID }
  ({ products := db.products ++ [row],
     images := db.images ++ imageRowsFor productId 0 product.imageUrls,
     nextId := db.nextId + 1 }, productId)

/-- Stable insertion of an image row into a list sorted by `display_order`. -/
def insertByOrder (x : ImageRow) : List ImageRow → List ImageRow
  | [] => [x]
  | y :: ys =>
    if y.displayOrder ≤ x.displayOrder then y :: insertByOrder x ys
    else x :: y :: ys

/-- `ORDER BY display_order` on a list of image rows. -/
def sortByDisplayOrder : List ImageRow → List ImageRow
  | [] => []
  | x :: xs => insertByOrder x (sortByDisplayOrder xs)

/-- `SELECT image_urls FROM product_images WHERE product_id = $1
ORDER BY display_order`: the URLs of a product's image rows in display
order. -/
def imagesFor (db : Db) (productId : Int) : List String :=
  (sortByDisplayOrder (db.images.filter (fun r => r.productId == productId))).map
    (fun r => r.imageUrls)

/-- Resolve a product row to a `domain.Product`, attaching its images (the
per-row image query shared by the read operations). -/
def rowToProduct (db : Db) (r : ProductRow) : Product :=
  { id := r.id, name := r.name, price := r.price, description := r.description,
    discount := r.discount, store := r.store, categoryID := r.categoryId,
    imageUrls := imagesFor db r.id }

/-- `GetById`: `QueryRow ... WHERE id = $1`; no matching row is
`pgx.ErrNoRows` (message `"no rows in result set"`), wrapped as
`"product not found with id %d: %w"`; otherwise the product with its images
resolved. -/
def GetById (db : Db) (productId : Int) : Except String Product :=
  match db.products.find? (fun r => r.id == productId) with
  | none =>
    .error ("product not found with id " ++ toString productId ++ ": no rows in result set")
  | some r => .ok (rowToProduct db r)

/-- `DeleteById`: `DELETE FROM products WHERE id = $1`; the schema's
`ON DELETE CASCADE` removes the product's image rows; zero rows affected is
reported as a not-found error. -/
def DeleteById (db : Db) (productId : Int) : Db × Option String :=
  let rowsAffected := (db.products.filter (fun r => r.id == productId)).length
  let db' : Db :=
    { products := db.products.filter (fun r => !(r.id == productId)),
      images := db.images.filter (fun ir => !(ir.productId == productId)),
      nextId := db.nextId }
  if rowsAffected == 0 then
    (db', some ("product with id " ++ toString productId ++ " not found"))
  else
    (db', none)

/-- `DeleteAllProducts`: `DELETE FROM products` (cascading to the image rows
of every deleted product); zero rows affected is reported as the error
`"products not found for deletion"`. -/
def DeleteAllProducts (db : Db) : Db × Option String :=
  let rowsAffected := db.products.length
  let db' : Db :=
    { products := [],
      images := db.images.filter (fun ir => !(db.products.any (fun r => r.id == ir.productId))),
      nextId := db.nextId }
  if rowsAffected == 0 then
    (db', some "products not found for deletion")
  else
    (db', none)

/-- `UpdatePrice`: `UPDATE products SET price = $1 WHERE id = $2`; the
result of `Exec` is discarded except for its error, so a missing id still
succeeds.  `dbErr` is the outcome of the underlying `Exec` call. -/
def UpdatePrice (dbErr : Option String) (db : Db) (productId : Int) (newPrice : Rat) :
    Db × Option String :=
  match dbErr with
  | some m =>
    (db, some ("error while updating product price with id " ++ toString productId ++ ": " ++ m))
  | none =>
    ({ db with
        products := db.products.map
          (fun r => if r.id == productId then { r with price := newPrice } else r) },
     none)

/-- `GettAllProducts` (sic): on underlying query failure, logs and returns
the empty list; otherwise every product with images resolved.  The return
type has no error component: the caller can never observe an error. -/
def GettAllProducts (dbErr : Option String) (db : Db) : List Product :=
  match dbErr with
  | some _ => []
  | none => db.products.map (rowToProduct db)

/-- `GetAllProductsByStore`: `WHERE store = $1`, same swallow-and-log failure
policy as `GettAllProducts`. -/
def GetAllProductsByStore (dbErr : Option String) (db : Db) (storeName : String) :
    List Product :=
  match dbErr with
  | some _ => []
  | none => (db.products.filter (fun r => r.store == storeName)).map (rowToProduct db)

/-- `GetProductsByCategoryId`: `WHERE category_id = $1`; unlike the two list
operations above, an underlying query failure is propagated as
`"error while getting products by category id %d: %w"`. -/
def GetProductsByCategoryId (dbErr : Option String) (db : Db) (categoryId : Int) :
    Except String (List Product) :=
  match dbErr with
  | some m =>
    .error ("error while getting products by category id " ++ toString categoryId ++ ": " ++ m)
  | none =>
    .ok ((db.products.filter (fun r => r.categoryId == categoryId)).map (rowToProduct db))

/-! ## Service (`ProductService.Add`) -/

/-- The `domain.Product` literal built by `ProductService.Add`: only Name,
Price, Description, Discount, Store and ImageUrls are copied from the
candidate; the omitted Go struct fields `Id` and `CategoryID` get the
`int64` zero value `0`. -/
def ProductService.toDomain (productCreate : ProductCreate) : Product :=
  { id := 0, name := productCreate.name, price := productCreate.price,
    description := productCreate.description, discount := productCreate.discount,
    store := productCreate.store, categoryID := 0,
    imageUrls := productCreate.imageUrls }

/-- `ProductService.Add`: validate, return the validation error without
touching the store on failure; otherwise call `AddProduct` and return its
result. -/
def ProductService.Add (db : Db) (productCreate : ProductCreate) : Db × Option String :=
  match validateProductCreate productCreate with
  | some e => (db, some e)
  | none => ((AddProduct db (ProductService.toDomain productCreate)).1, none)

/-! ## State invariants -/

/-- Well-formedness of the id counter: every existing product id and every
image row's owner id is below `nextId`, so the next generated id is fresh. -/
def Db.wf (db : Db) : Prop :=
  (∀ r ∈ db.products, r.id < db.nextId) ∧ (∀ ir ∈ db.images, ir.productId < db.nextId)

instance (db : Db) : Decidable db.wf := by
  unfold Db.wf; infer_instance

/-- No orphan image rows: every image row's `product_id` references an
existing product row. -/
def noOrphans (db : Db) : Prop :=
  ∀ ir ∈ db.images, ∃ r ∈ db.products, r.id = ir.productId

/-- The empty database with the id counter at 1 (`BIGSERIAL` starts at 1). -/
def db0 : Db := { products := [], images := [], nextId := 1 }

/-- A sample persisted product row, used by concrete witnesses. -/
def sampleRow : ProductRow :=
  { id := 1, name := "A", price := 10, description := "", discount := 0, store := "S", categoryId := 0 }

/-- A database holding exactly `sampleRow`, with the id counter past it. -/
def dbOne : Db := { products := [sampleRow], images := [], nextId := 2 }

/-- A sample image row belonging to `sampleRow`. -/
def sampleImage : ImageRow :=
  { productId := 1, imageUrls := "u", isMainImage := true, displayOrder := 0 }

/-- A database holding `sampleRow` together with its image row. -/
def dbImg : Db := { products := [sampleRow], images := [sampleImage], nextId := 2 }

/-! ## Specification-side validation contract (§4.1 of the spec)

For the refinement claim about validation ordering, the spec's contract is
stated separately, in its own words: an explicit ordered list of
(predicate, error message) rules, of which the first violated one is
surfaced. -/

/-- The ordered rule list of the spec: (1) name non-empty, then name matches
the letters/digits/whitespace regex; (2) price > 0; (3) store non-empty, then
store matches the same regex; (4) 0 ≤ discount ≤ 70. -/
def specValidationRules : List ((ProductCreate → Bool) × String) :=
  [ (fun pc => !(pc.name == ""), "product name is required"),
    (fun pc => matchesNameRegex pc.name,
      "contains invalid characters (only alphanumeric and space allowed)"),
    (fun pc => decide (0 < pc.price), "product price must be greater than zero"),
    (fun pc => !(pc.store == ""), "store name is required"),
    (fun pc => matchesNameRegex pc.store,
      "contains invalid characters (only alphanumeric and space allowed)"),
    (fun pc => decide (0 ≤ pc.discount) && decide (pc.discount ≤ 70),
      "discount must be between 0 and 70 percent") ]

/-- The message of the first violated rule, or `none` when all rules hold. -/
def firstViolation (rules : List ((ProductCreate → Bool) × String))
    (pc : ProductCreate) : Option String :=
  (rules.find? (fun rule => !(rule.1 pc))).map (fun rule => rule.2)

/-! ## Helper lemmas -/

lemma find?_append_of_forall_false {α : Type} (p : α → Bool) (l₁ l₂ : List α)
    (h : ∀ x ∈ l₁, p x = false) : (l₁ ++ l₂).find? p = l₂.find? p := by
  induction l₁ with
  | nil => rfl
  | cons a l ih =>
    simp only [List.cons_append, List.find?, h a (List.mem_cons_self a l)]
    exact ih fun x hx => h x (List.mem_cons_of_mem a hx)

lemma filter_eq_nil_of_forall_false {α : Type} (p : α → Bool) (l : List α)
    (h : ∀ x ∈ l, p x = false) : l.filter p = [] := by
  induction l with
  | nil => rfl
  | cons a l ih =>
    simp only [List.filter, h a (List.mem_cons_self a l)]
    exact ih fun x hx => h x (List.mem_cons_of_mem a hx)

lemma filter_eq_self_of_forall_true {α : Type} (p : α → Bool) (l : List α)
    (h : ∀ x ∈ l, p x = true) : l.filter p = l := by
  induction l with
  | nil => rfl
  | cons a l ih =>
    simp only [List.filter, h a (List.mem_cons_self a l)]
    exact congrArg (a :: ·) (ih fun x hx => h x (List.mem_cons_of_mem a hx))

lemma map_eq_self_of_forall {α : Type} (f : α → α) (l : List α)
    (h : ∀ x ∈ l, f x = x) : l.map f = l := by
  induction l with
  | nil => rfl
  | cons a l ih =>
    simp only [List.map, h a (List.mem_cons_self a l)]
    exact congrArg (a :: ·) (ih fun x hx => h x (List.mem_cons_of_mem a hx))

lemma validateNameWithRegex_eq_none_iff (name msg : String) :
    validateNameWithRegex name msg = none ↔ matchesNameRegex name = true := by
  unfold validateNameWithRegex matchesNameRegex
  by_cases h : name == "" <;> simp [h]

lemma find?_eq_none_of_forall_false {α : Type} (p : α → Bool) (l : List α)
    (h : ∀ x ∈ l, p x = false) : l.find? p = none := by
  induction l with
  | nil => rfl
  | cons a l ih =>
    simp only [List.find?, h a (List.mem_cons_self a l)]
    exact ih fun x hx => h x (List.mem_cons_of_mem a hx)

lemma imageRowsFor_productId (pid : Int) (j : Nat) (urls : List String) :
    ∀ ir ∈ imageRowsFor pid j urls, ir.productId = pid := by
  induction urls generalizing j with
  | nil => intro ir h; cases h
  | cons u rest ih =>
    intro ir h
    cases h with
    | head => rfl
    | tail _ h => exact ih (j + 1) ir h

lemma imageRowsFor_length (pid : Int) (j : Nat) (urls : List String) :
    (imageRowsFor pid j urls).length = urls.length := by
  induction urls generalizing j with
  | nil => rfl
  | cons u rest ih => simp [imageRowsFor, ih (j + 1)]

lemma imageRowsFor_getElem? (pid : Int) (j : Nat) (urls : List String) (i : Nat) :
    (imageRowsFor pid j urls)[i]? =
      urls[i]?.map (fun url =>
        { productId := pid, imageUrls := url,
          isMainImage := (j + i) == 0, displayOrder := j + i }) := by
  induction urls generalizing j i with
  | nil => simp [imageRowsFor]
  | cons u rest ih =>
    cases i with
    | zero => simp [imageRowsFor]
    | succ k =>
      simp only [imageRowsFor, List.getElem?_cons_succ, ih (j + 1) k]
      have : j + 1 + k = j + (k + 1) := by omega
      rw [this]

lemma imageRowsFor_map_urls (pid : Int) (j : Nat) (urls : List String) :
    (imageRowsFor pid j urls).map (fun r => r.imageUrls) = urls := by
  induction urls generalizing j with
  | nil => rfl
  | cons u rest ih => simp [imageRowsFor, ih (j + 1)]

lemma imageRowsFor_filter_pid (pid : Int) (j : Nat) (urls : List String) :
    (imageRowsFor pid j urls).filter (fun r => r.productId == pid) =
      imageRowsFor pid j urls :=
  filter_eq_self_of_forall_true _ _ fun ir hir => by
    simp [imageRowsFor_productId pid j urls ir hir]

lemma sortByDisplayOrder_imageRowsFor (pid : Int) (j : Nat) (urls : List String) :
    sortByDisplayOrder (imageRowsFor pid j urls) = imageRowsFor pid j urls := by
  induction urls generalizing j with
  | nil => rfl
  | cons u rest ih =>
    simp only [imageRowsFor, sortByDisplayOrder, ih (j + 1)]
    cases rest with
    | nil => rfl
    | cons v rest' =>
      have hle : ¬ (j + 1 ≤ j) := by omega
      simp [imageRowsFor, insertByOrder, hle]

lemma decide_lt_eq_not_decide_le (a b : Rat) : decide (a < b) = !(decide (b ≤ a)) := by
  by_cases h : b ≤ a
  · simp [h, not_lt.2 h]
  · simp [h, not_le.1 h]

/-! ## Preservation of the no-orphan-image-rows invariant -/

lemma noOrphans_AddProduct (db : Db) (p : Product) (ho : noOrphans db) :
    noOrphans (AddProduct db p).1 := by
  intro ir hir
  simp only [AddProduct] at hir ⊢
  rcases List.mem_append.1 hir with hold | hnew
  · obtain ⟨r, hr, hid⟩ := ho ir hold
    exact ⟨r, List.mem_append_left _ hr, hid⟩
  · refine ⟨_, List.mem_append_right _ (List.mem_singleton_self _), ?_⟩
    exact (imageRowsFor_productId db.nextId 0 p.imageUrls ir hnew).symm

lemma noOrphans_DeleteById (db : Db) (productId : Int) (ho : noOrphans db) :
    noOrphans (DeleteById db productId).1 := by
  have hfst : (DeleteById db productId).1 =
      { products := db.products.filter (fun r => !(r.id == productId)),
        images := db.images.filter (fun ir => !(ir.productId == productId)),
        nextId := db.nextId } := by
    unfold DeleteById
    cases hb : (db.products.filter (fun r => r.id == productId)).length == 0 <;> simp [hb]
  rw [hfst]
  intro ir hir
  obtain ⟨hmem, hne⟩ := List.mem_filter.1 hir
  obtain ⟨r, hr, hid⟩ := ho ir hmem
  refine ⟨r, List.mem_filter.2 ⟨hr, ?_⟩, hid⟩
  rw [hid]
  exact hne

lemma noOrphans_DeleteAllProducts (db : Db) (ho : noOrphans db) :
    noOrphans (DeleteAllProducts db).1 := by
  have hfst : (DeleteAllProducts db).1 =
      { products := [],
        images := db.images.filter
          (fun ir => !(db.products.any (fun r => r.id == ir.productId))),
        nextId := db.nextId } := by
    unfold DeleteAllProducts
    cases hb : db.products.length == 0 <;> simp [hb]
  rw [hfst]
  intro ir hir
  obtain ⟨hmem, hne⟩ := List.mem_filter.1 hir
  obtain ⟨r, hr, hid⟩ := ho ir hmem
  have hany : db.products.any (fun r => r.id == ir.productId) = true :=
    List.any_eq_true.2 ⟨r, hr, by simp [hid]⟩
  rw [hany] at hne
  simp at hne

lemma noOrphans_UpdatePrice (db : Db) (productId : Int) (newPrice : Rat)
    (ho : noOrphans db) : noOrphans (UpdatePrice none db productId newPrice).1 := by
  intro ir hir
  simp only [UpdatePrice] at hir ⊢
  obtain ⟨r, hr, hid⟩ := ho ir hir
  refine ⟨_, List.mem_map_of_mem _ hr, ?_⟩
  cases hc : r.id == productId <;> simp [hc, hid]

lemma noOrphans_ServiceAdd (db : Db) (pc : ProductCreate) (ho : noOrphans db) :
    noOrphans (ProductService.Add db pc).1 := by
  unfold ProductService.Add
  cases hv : validateProductCreate pc with
  | some e => exact ho
  | none => exact noOrphans_AddProduct db (ProductService.toDomain pc) ho

instance {ε α : Type} [DecidableEq ε] [DecidableEq α] : DecidableEq (Except ε α)
  | .error a, .error b =>
    if h : a = b then .isTrue (by rw [h]) else .isFalse (by intro hc; cases hc; exact h rfl)
  | .error _, .ok _ => .isFalse (by intro hc; cases hc)
  | .ok _, .error _ => .isFalse (by intro hc; cases hc)
  | .ok a, .ok b =>
    if h : a = b then .isTrue (by rw [h]) else .isFalse (by intro hc; cases hc; exact h rfl)

/-- Reading back the id generated by `AddProduct` on a well-formed state
returns exactly the inserted product: the freshly generated id, the six
copied columns, and the image URLs in insertion order. -/
lemma GetById_after_AddProduct (db : Db) (p : Product) (hwf : db.wf) :
    GetById (AddProduct db p).1 db.nextId =
      .ok { id := db.nextId, name := p.name, price := p.price,
            description := p.description, discount := p.discount,
            store := p.store, categoryID := p.categoryID,
            imageUrls := p.imageUrls } := by
  have hprod : ∀ r ∈ db.products, ((fun r : ProductRow => r.id == db.nextId) r) = false := by
    intro r hr
    simpa using Int.ne_of_lt (hwf.1 r hr)
  have himg : ∀ ir ∈ db.images,
      ((fun ir : ImageRow => ir.productId == db.nextId) ir) = false := by
    intro ir hir
    simpa using Int.ne_of_lt (hwf.2 ir hir)
  simp only [GetById, AddProduct]
  rw [find?_append_of_forall_false _ db.products _ hprod]
  simp only [List.find?, beq_self_eq_true]
  simp only [rowToProduct, imagesFor]
  rw [List.filter_append, filter_eq_nil_of_forall_false _ db.images himg, List.nil_append,
    imageRowsFor_filter_pid, sortByDisplayOrder_imageRowsFor, imageRowsFor_map_urls]

/-! ## Claim theorems -/

/-- The candidate exhibiting that `ProductService.Add` drops `categoryID`. -/
def ceCandidate : ProductCreate :=
  { name := "Mug", price := 5, description := "d", discount := 0, store := "Shop",
    imageUrls := ["u1"], categoryID := 7 }

/-- A valid candidate with three image URLs, used by the round-trip witness. -/
def wCandidate : ProductCreate :=
  { name := "Vase", price := 3, description := "x", discount := 10, store := "Dekor",
    imageUrls := ["a", "b", "c"], categoryID := 0 }

/-- C1 counterexample: the valid candidate `ceCandidate` carries
`categoryID = 7`, yet `Add` followed by `GetById` on the generated id (1)
returns the product with `categoryID = 0` — not equal to the candidate in
the categoryId field (all other fields and the image order do round-trip). -/
theorem Add_GetById_roundtrip_drops_categoryId :
    validateProductCreate ceCandidate = none ∧
    GetById (ProductService.Add db0 ceCandidate).1 1 =
      .ok { id := 1, name := "Mug", price := 5, description := "d", discount := 0,
            store := "Shop", categoryID := 0, imageUrls := ["u1"] } ∧
    GetById (ProductService.Add db0 ceCandidate).1 1 ≠
      .ok { id := 1, name := "Mug", price := 5, description := "d", discount := 0,
            store := "Shop", categoryID := ceCandidate.categoryID, imageUrls := ["u1"] } := by
  refine ⟨by decide, by decide, by decide⟩

/-- C1 (corrected): for every valid candidate on a well-formed state,
`Service.Add` succeeds and `GetById` on the generated id returns a product
equal to the candidate in name, price, description, discount and store, with
the image URLs in the order supplied — but with `categoryID = 0` (the Go
zero value) regardless of the candidate's categoryId, which `Add` does not
copy into the stored product. -/
theorem Add_GetById_roundtrip (db : Db) (pc : ProductCreate)
    (hwf : db.wf) (hv : validateProductCreate pc = none) :
    (ProductService.Add db pc).2 = none ∧
    GetById (ProductService.Add db pc).1 db.nextId =
      .ok { id := db.nextId, name := pc.name, price := pc.price,
            description := pc.description, discount := pc.discount,
            store := pc.store, categoryID := 0, imageUrls := pc.imageUrls } := by
  constructor
  · simp [ProductService.Add, hv]
  · have h := GetById_after_AddProduct db (ProductService.toDomain pc) hwf
    simpa [ProductService.Add, ProductService.toDomain, hv] using h

/-- C1 witness: the round-trip on the empty state and the valid candidate
`wCandidate` with three image URLs. -/
theorem Add_GetById_roundtrip_witness :
    (ProductService.Add db0 wCandidate).2 = none ∧
    GetById (ProductService.Add db0 wCandidate).1 db0.nextId =
      .ok { id := db0.nextId, name := wCandidate.name, price := wCandidate.price,
            description := wCandidate.description, discount := wCandidate.discount,
            store := wCandidate.store, categoryID := 0,
            imageUrls := wCandidate.imageUrls } :=
  Add_GetById_roundtrip db0 wCandidate (by decide) (by decide)

/-- C2 (confirmed): `validateProductCreate` returns the error of the first
violated rule of the spec's ordered rule list — name non-empty, name regex,
price > 0, store non-empty, store regex, 0 ≤ discount ≤ 70 — and in
particular an empty name together with a non-positive price yields the
name-required error, not the price error. -/
theorem validateProductCreate_first_violation (pc : ProductCreate) :
    validateProductCreate pc = firstViolation specValidationRules pc ∧
    (pc.name = "" → pc.price ≤ 0 →
      validateProductCreate pc = some "product name is required") := by
  constructor
  · cases hn : pc.name == "" with
    | true =>
      simp [validateProductCreate, validateNameWithRegex, firstViolation,
        specValidationRules, List.find?, hn]
    | false =>
      cases hm : matchesNameRegex pc.name with
      | false =>
        simp [validateProductCreate, validateNameWithRegex, firstViolation,
          specValidationRules, List.find?, hn, hm]
      | true =>
        by_cases h3 : pc.price ≤ 0
        · have hp : decide (0 < pc.price) = false := decide_eq_false (not_lt.2 h3)
          simp [validateProductCreate, validateNameWithRegex, firstViolation,
            specValidationRules, List.find?, hn, hm, h3, hp]
        · have hp : decide (0 < pc.price) = true := decide_eq_true (not_le.1 h3)
          cases hs : pc.store == "" with
          | true =>
            simp [validateProductCreate, validateNameWithRegex, firstViolation,
              specValidationRules, List.find?, hn, hm, h3, hp, hs]
          | false =>
            cases hms : matchesNameRegex pc.store with
            | false =>
              simp [validateProductCreate, validateNameWithRegex, firstViolation,
                specValidationRules, List.find?, hn, hm, h3, hp, hs, hms]
            | true =>
              by_cases h6 : pc.discount < 0
              · have hd : decide (0 ≤ pc.discount) = false := decide_eq_false (not_le.2 h6)
                simp [validateProductCreate, validateNameWithRegex, firstViolation,
                  specValidationRules, List.find?, hn, hm, h3, hp, hs, hms, h6, hd]
              · have hd : decide (0 ≤ pc.discount) = true := decide_eq_true (not_lt.1 h6)
                by_cases h7 : pc.discount > 70
                · have hd70 : decide (pc.discount ≤ 70) = false :=
                    decide_eq_false (not_le.2 h7)
                  simp [validateProductCreate, validateNameWithRegex, firstViolation,
                    specValidationRules, List.find?, hn, hm, h3, hp, hs, hms, h6, h7, hd, hd70]
                · have hd70 : decide (pc.discount ≤ 70) = true :=
                    decide_eq_true (not_lt.1 h7)
                  simp [validateProductCreate, validateNameWithRegex, firstViolation,
                    specValidationRules, List.find?, hn, hm, h3, hp, hs, hms, h6, h7, hd, hd70]
  · intro hnv hp
    unfold validateProductCreate validateNameWithRegex
    simp [hnv]

/-- C2 witness: on the concrete candidate with empty name and price 0, the
theorem yields the name-required error. -/
theorem validateProductCreate_first_violation_witness :
    validateProductCreate
      { name := "", price := 0, description := "", discount := 0,
        store := "Shop", imageUrls := [], categoryID := 0 } =
      some "product name is required" :=
  (validateProductCreate_first_violation _).2 rfl (by decide)

/-- C3 counterexample: a candidate whose `categoryId` (999) references no
existing Category — the system state `db0` contains none — is not rejected:
validation returns valid and `ProductService.Add` succeeds.  No category
check occurs at validation time. -/
theorem service_validation_accepts_missing_category :
    validateProductCreate
      { name := "Lamp", price := 5, description := "d", discount := 0,
        store := "Shop", imageUrls := [], categoryID := 999 } = none ∧
    (ProductService.Add db0
      { name := "Lamp", price := 5, description := "d", discount := 0,
        store := "Shop", imageUrls := [], categoryID := 999 }).2 = none := by
  decide

/-- C3 (corrected): the service layer performs no categoryId check at all —
both validation and `ProductService.Add` are independent of the candidate's
`categoryID` field (`Add` does not even copy it into the stored product). -/
theorem add_independent_of_categoryId (db : Db) (pc : ProductCreate) (c₁ c₂ : Int) :
    validateProductCreate { pc with categoryID := c₁ } =
      validateProductCreate { pc with categoryID := c₂ } ∧
    ProductService.Add db { pc with categoryID := c₁ } =
      ProductService.Add db { pc with categoryID := c₂ } :=
  ⟨rfl, rfl⟩

/-- C4 counterexample: a candidate with empty name and price 0 has
non-positive price, yet `ProductService.Add` returns the name-required
error, not the price error. -/
theorem nonpositive_price_yields_name_error :
    ({ name := "", price := 0, description := "", discount := 0,
       store := "Shop", imageUrls := [], categoryID := 0 } : ProductCreate).price ≤ 0 ∧
    (ProductService.Add db0
      { name := "", price := 0, description := "", discount := 0,
        store := "Shop", imageUrls := [], categoryID := 0 }).2 =
      some "product name is required" ∧
    "product name is required" ≠ "product price must be greater than zero" := by
  decide

/-- C4 (corrected): for every candidate with price ≤ 0, `ProductService.Add`
returns a validation error and leaves the store untouched; the error is the
price error whenever the name passes its checks (otherwise the earlier
name-rule error is surfaced). -/
theorem add_nonpositive_price_rejects_without_store (db : Db) (pc : ProductCreate)
    (h : pc.price ≤ 0) :
    (ProductService.Add db pc).1 = db ∧
    (∃ e, (ProductService.Add db pc).2 = some e) ∧
    (matchesNameRegex pc.name = true →
      (ProductService.Add db pc).2 = some "product price must be greater than zero") := by
  cases hv : validateNameWithRegex pc.name "product name is required" with
  | some e =>
    refine ⟨?_, ⟨e, ?_⟩, ?_⟩
    · simp [ProductService.Add, validateProductCreate, hv]
    · simp [ProductService.Add, validateProductCreate, hv]
    · intro hm
      rw [(validateNameWithRegex_eq_none_iff pc.name "product name is required").2 hm] at hv
      exact absurd hv (by simp)
  | none =>
    refine ⟨?_, ⟨"product price must be greater than zero", ?_⟩, fun _ => ?_⟩ <;>
      simp [ProductService.Add, validateProductCreate, hv, h]

/-- C4 witness: a concrete candidate with valid name and price 0 is rejected
with the price error and the state is unchanged. -/
theorem add_nonpositive_price_rejects_without_store_witness :
    (ProductService.Add db0
      { name := "Lamp", price := 0, description := "", discount := 0,
        store := "Shop", imageUrls := [], categoryID := 0 }).1 = db0 ∧
    (ProductService.Add db0
      { name := "Lamp", price := 0, description := "", discount := 0,
        store := "Shop", imageUrls := [], categoryID := 0 }).2 =
      some "product price must be greater than zero" :=
  ⟨(add_nonpositive_price_rejects_without_store db0 _ (by decide)).1,
   (add_nonpositive_price_rejects_without_store db0 _ (by decide)).2.2 (by decide)⟩

/-- C6 (confirmed): `UpdatePrice` on an id not present in the store returns
success (`nil` error) and leaves the state unchanged — it never checks that
the id existed. -/
theorem UpdatePrice_missing_id_succeeds (db : Db) (productId : Int) (newPrice : Rat)
    (h : ∀ r ∈ db.products, r.id ≠ productId) :
    UpdatePrice none db productId newPrice = (db, none) := by
  unfold UpdatePrice
  have hmap := map_eq_self_of_forall
    (fun r => if r.id == productId then { r with price := newPrice } else r) db.products
    (fun r hr => by simp [h r hr])
  rw [hmap]

/-- C6 witness: updating id 2 in a store holding only id 1 succeeds and
changes nothing. -/
theorem UpdatePrice_missing_id_succeeds_witness :
    UpdatePrice none dbOne 2 5 = (dbOne, none) :=
  UpdatePrice_missing_id_succeeds dbOne 2 5 (by decide)

/-- C5 (confirmed): `AddProduct` appends exactly one image row per supplied
URL, attributed to the generated product id, with `display_order` equal to
the URL's 0-based position and `is_main_image` true exactly at position 0. -/
theorem AddProduct_one_image_row_per_url (db : Db) (product : Product) :
    (AddProduct db product).1.images =
      db.images ++ imageRowsFor db.nextId 0 product.imageUrls ∧
    (imageRowsFor db.nextId 0 product.imageUrls).length = product.imageUrls.length ∧
    ∀ i : Nat, (imageRowsFor db.nextId 0 product.imageUrls)[i]? =
      product.imageUrls[i]?.map (fun url =>
        { productId := db.nextId, imageUrls := url,
          isMainImage := i == 0, displayOrder := i }) := by
  refine ⟨rfl, imageRowsFor_length _ _ _, fun i => ?_⟩
  simpa using imageRowsFor_getElem? db.nextId 0 product.imageUrls i

/-- C7 (confirmed): `DeleteAllProducts` succeeds exactly when the products
table was non-empty; the call always leaves the table empty, so an
immediately following second call returns the `"products not found for
deletion"` error. -/
theorem DeleteAllProducts_twice (db : Db) :
    ((DeleteAllProducts db).2 = none ↔ db.products ≠ []) ∧
    (DeleteAllProducts db).1.products = [] ∧
    (DeleteAllProducts (DeleteAllProducts db).1).2 =
      some "products not found for deletion" := by
  unfold DeleteAllProducts
  cases hp : db.products with
  | nil => simp
  | cons a l => simp

/-- C7 witness: on a table holding one product, the first call succeeds and
the second call returns the nothing-to-delete error. -/
theorem DeleteAllProducts_twice_witness :
    (DeleteAllProducts dbOne).2 = none ∧
    (DeleteAllProducts (DeleteAllProducts dbOne).1).2 =
      some "products not found for deletion" :=
  ⟨(DeleteAllProducts_twice dbOne).1.mpr (by decide),
   (DeleteAllProducts_twice dbOne).2.2⟩

/-- C8 (confirmed): on underlying query failure, `GettAllProducts` and
`GetAllProductsByStore` return the empty sequence (their return type has no
error component, so the caller can never observe an error), while
`GetProductsByCategoryId` returns an explicit wrapped error. -/
theorem list_ops_failure_policy (m : String) (db : Db) (storeName : String)
    (categoryId : Int) :
    GettAllProducts (some m) db = [] ∧
    GetAllProductsByStore (some m) db storeName = [] ∧
    GetProductsByCategoryId (some m) db categoryId =
      .error ("error while getting products by category id " ++
        toString categoryId ++ ": " ++ m) :=
  ⟨rfl, rfl, rfl⟩

/-- C9 (confirmed): deleting an existing id succeeds and cascades to its
image rows — afterwards `GetById` fails with the not-found error carrying
the id, and no image row with that product id remains — and the
no-orphan-image-rows condition is preserved by every state-changing
operation. -/
theorem DeleteById_cascade_no_orphans (db : Db) (productId : Int)
    (h : ∃ r ∈ db.products, r.id = productId) :
    (DeleteById db productId).2 = none ∧
    GetById (DeleteById db productId).1 productId =
      .error ("product not found with id " ++ toString productId ++
        ": no rows in result set") ∧
    (∀ ir ∈ (DeleteById db productId).1.images, ir.productId ≠ productId) ∧
    (noOrphans db → noOrphans (DeleteById db productId).1) ∧
    (∀ p, noOrphans db → noOrphans (AddProduct db p).1) ∧
    (noOrphans db → noOrphans (DeleteAllProducts db).1) ∧
    (∀ newPrice, noOrphans db → noOrphans (UpdatePrice none db productId newPrice).1) ∧
    (∀ pc, noOrphans db → noOrphans (ProductService.Add db pc).1) := by
  obtain ⟨r, hr, hrid⟩ := h
  have hmem : r ∈ db.products.filter (fun r => r.id == productId) :=
    List.mem_filter.2 ⟨hr, by simp [hrid]⟩
  have hbeq : ((db.products.filter (fun r => r.id == productId)).length == 0) = false := by
    have hpos := List.length_pos_of_mem hmem
    simp only [beq_eq_false_iff_ne, ne_eq]
    omega
  have hfst : (DeleteById db productId).1 =
      { products := db.products.filter (fun r => !(r.id == productId)),
        images := db.images.filter (fun ir => !(ir.productId == productId)),
        nextId := db.nextId } := by
    simp [DeleteById, hbeq]
  refine ⟨?_, ?_, ?_, noOrphans_DeleteById db productId,
    fun p => noOrphans_AddProduct db p,
    noOrphans_DeleteAllProducts db,
    fun np => noOrphans_UpdatePrice db productId np,
    fun pc => noOrphans_ServiceAdd db pc⟩
  · simp [DeleteById, hbeq]
  · rw [hfst]
    unfold GetById
    have hnone : (db.products.filter (fun r => !(r.id == productId))).find?
        (fun r => r.id == productId) = none := by
      apply find?_eq_none_of_forall_false
      intro x hx
      obtain ⟨_, hne⟩ := List.mem_filter.1 hx
      simpa using hne
    rw [hnone]
  · rw [hfst]
    intro ir hir
    obtain ⟨_, hne⟩ := List.mem_filter.1 hir
    simpa using hne

/-- C9 witness: on a database holding product 1 with one image row, deleting
id 1 succeeds, `GetById 1` then fails with the not-found message, and no
image row for id 1 remains. -/
theorem DeleteById_cascade_no_orphans_witness :
    (DeleteById dbImg 1).2 = none ∧
    GetById (DeleteById dbImg 1).1 1 =
      .error "product not found with id 1: no rows in result set" ∧
    (∀ ir ∈ (DeleteById dbImg 1).1.images, ir.productId ≠ 1) :=
  ⟨(DeleteById_cascade_no_orphans dbImg 1 ⟨sampleRow, by decide, by decide⟩).1,
   (DeleteById_cascade_no_orphans dbImg 1 ⟨sampleRow, by decide, by decide⟩).2.1,
   (DeleteById_cascade_no_orphans dbImg 1 ⟨sampleRow, by decide, by decide⟩).2.2.1⟩

/-- C10 (confirmed): a candidate whose name is a single space passes
validation — the emptiness check sees a non-empty string and the regex class
`[\p{L}\p{N}\s]` matches whitespace — so `ProductService.Add` proceeds to
persist it. -/
theorem whitespace_name_passes_validation :
    validateProductCreate
      { name := " ", price := 1, description := "", discount := 0,
        store := "Shop", imageUrls := [], categoryID := 0 } = none ∧
    (ProductService.Add db0
      { name := " ", price := 1, description := "", discount := 0,
        store := "Shop", imageUrls := [], categoryID := 0 }).2 = none ∧
    (ProductService.Add db0
      { name := " ", price := 1, description := "", discount := 0,
        store := "Shop", imageUrls := [], categoryID := 0 }).1.products =
      [{ id := 1, name := " ", price := 1, description := "", discount := 0,
         store := "Shop", categoryId := 0 }] := by
  decide

end ProductApp
